import Mathlib

/-!
Verification of the SD-JWT credential engine (identity.rs): a shallow embedding of
the SD-JWT / KB-JWT validator (`validator/sd_jwt/validator.rs`), the KB-JWT
validation options (`kb_validation_options.rs`), the error enums
(`validator/sd_jwt/error.rs`) and the SD-JWT VC claims layer
(`sd_jwt_vc/claims.rs`), together with theorems settling the behavioural claims
about them.

Types that the source consumes from sibling crates that are not part of the
vendored sources (identity_core `Timestamp`/`Url`/`StringOrUrl`, the `sd_jwt`
crate's token/claims types, DID documents, JWS decoding) are modelled from the
specification; every such definition carries a doc comment saying so.
-/

namespace Identity

/-- JSON values as used by the claims objects (`serde_json::Value`). Numbers are
modelled as integers: every number the embedded code inspects is consumed through
`as_i64`. Objects are ordered association lists, mirroring `serde_json::Map` with
the `preserve_order` feature used by the crate. -/
inductive Json where
  | null : Json
  | bool (b : Bool) : Json
  | num (n : Int) : Json
  | str (s : String) : Json
  | arr (elems : List Json) : Json
  | obj (fields : List (String × Json)) : Json

/-- A JSON object: an ordered association list of key/value pairs. -/
abbrev JsonObject := List (String × Json)

/-- Lookup of a key in a JSON object (`serde_json::Map::get`): first matching
entry. -/
def JsonObject.get (o : JsonObject) (k : String) : Option Json :=
  match o with
  | [] => none
  | (k', v) :: rest => if k' = k then some v else JsonObject.get rest k

/-- Removal of a key from a JSON object (`serde_json::Map::remove`): drops the
first entry with the given key. -/
def JsonObject.removeKey (o : JsonObject) (k : String) : JsonObject :=
  match o with
  | [] => []
  | (k', v) :: rest => if k' = k then rest else (k', v) :: JsonObject.removeKey rest k

/-- Insertion into a JSON object (`serde_json::Map::insert`): replaces the value
of an existing entry in place, otherwise appends. -/
def JsonObject.insertKV (o : JsonObject) (k : String) (v : Json) : JsonObject :=
  match o with
  | [] => [(k, v)]
  | (k', v') :: rest =>
    if k' = k then (k', v) :: rest else (k', v') :: JsonObject.insertKV rest k v

/-- The `sd_jwt::Hasher` capability: an algorithm name and the base64url-encoded
digest function over the presented bytes (`alg_name` / `encoded_digest`). -/
structure Hasher where
  alg_name : String
  encoded_digest : String → String

/-- `sd_jwt::SHA_ALG_NAME`: the default digest algorithm name. -/
def SHA_ALG_NAME : String := "sha-256"

/-- Modelled from the spec: the `sd_jwt` crate's `RequiredKeyBinding` (the `cnf`
claim), "a tagged sum Kid(string), Jwk(object), Other": only `kid` and `jwk`
are supported, any other shape is `other`. -/
inductive RequiredKeyBinding where
  | kid (kid : String) : RequiredKeyBinding
  | jwk (jwk : JsonObject) : RequiredKeyBinding
  | other : RequiredKeyBinding

/-- Modelled from the spec: the `sd_jwt` crate's `SdJwtClaims`, the JWS payload
of an SD-JWT: the reserved `_sd` array, optional `_sd_alg` naming the digest
algorithm, optional `cnf` holding the required key binding, and the remaining
top-level properties. -/
structure SdJwtClaims where
  _sd : List String
  _sd_alg : Option String
  cnf : Option RequiredKeyBinding
  properties : JsonObject

/-- Modelled from the spec: the `sd_jwt` crate's `KeyBindingJwtClaims`: required
`iat : int`, `nonce : string`, `aud : string`, `sd_hash : string`. -/
structure KeyBindingJwtClaims where
  iat : Int
  aud : String
  nonce : String
  sd_hash : String

/-- Modelled from the spec: the `sd_jwt` crate's `KeyBindingJwt`: a compact JWS
whose wire form is `serialization` (what `to_string` returns) and whose payload
is `claims`. -/
structure KeyBindingJwt where
  serialization : String
  claims : KeyBindingJwtClaims

/-- Modelled from the spec: the `sd_jwt` crate's `SdJwt` token, "an ordered
sequence: one JWS (compact) followed by zero or more disclosures, optionally
followed by one KB-JWT", keeping the parsed payload claims. `disclosures` holds
the byte (base64url) forms. -/
structure SdJwt where
  jws : String
  disclosures : List String
  key_binding_jwt : Option KeyBindingJwt
  claims : SdJwtClaims

/-- The concatenation `D1 ~ D2 ~ … ~ Dn ~` of disclosure byte forms, each
followed by its separating `~`. -/
def tildeSeparated : List String → String
  | [] => ""
  | d :: rest => d ++ "~" ++ tildeSeparated rest

/-- The part of the wire form before the KB-JWT position: the literal
concatenation `JWS ~ D1 ~ … ~ Dn ~`, always ending with the `~` that separates
the disclosure list from the KB position. -/
def SdJwt.head (t : SdJwt) : String :=
  t.jws ++ "~" ++ tildeSeparated t.disclosures

/-- The wire form of the token (`SdJwt::to_string` / `SdJwt::presentation`):
the head followed by the KB-JWT when present. -/
def SdJwt.serialization (t : SdJwt) : String :=
  t.head ++ (match t.key_binding_jwt with
             | some kb => kb.serialization
             | none => "")

/-- Everything up to and including the last occurrence of `c`; empty when `c`
does not occur. -/
def takeThroughLast (c : Char) (s : List Char) : List Char :=
  (s.reverse.dropWhile (fun x => x ≠ c)).reverse

/-- The byte range the validator digests for the `sd_hash` comparison: the
token's string form up to and including the last `~`
(`sd_jwt_str[..last_tilde_index + 1]`). -/
def SdJwt.sdHashInput (t : SdJwt) : String :=
  String.mk (takeThroughLast '~' t.serialization.data)

/-- A DID (`identity_did::CoreDID`), identified by its string form. -/
abbrev CoreDID := String

/-- Modelled from the spec: a DID URL (`identity_did::DIDUrl`), a DID qualified
by path/query/fragment; the validator only projects out the DID. -/
structure DIDUrl where
  did : CoreDID
  tail : String

/-- Modelled from the spec: a JSON Web Key, treated as an opaque record of
parameters; the validator only passes it to the verifier capability. -/
structure Jwk where
  params : JsonObject

/-- Modelled from the spec: a verification method inside a DID document,
carrying optional public key material (`method.data().public_key_jwk()`). -/
structure VerificationMethod where
  public_key_jwk : Option Jwk

/-- Modelled from the spec: a DID document consumed as a read-only
method-lookup interface: its `id` and `resolve_method`. -/
structure CoreDocument where
  id : CoreDID
  resolve_method : DIDUrl → Option VerificationMethod

/-- Modelled from the spec: the outcome of decoding a compact JWS
(`JwsValidationItem`): the validator consults the protected header's `typ`. -/
structure DecodedJws where
  typ : Option String

/-- The external capabilities `validate_key_binding_jwt` consumes: DID-URL
parsing, JWK deserialization, JWS decoding, the injected signature `Verifier`,
and the current time (`Timestamp::now_utc`), all supplied by the caller's
environment. -/
structure KbEnv where
  did_url_parse : String → Option DIDUrl
  jwk_from_json : JsonObject → Option Jwk
  decode_jws : String → Option DecodedJws
  verify : DecodedJws → Jwk → Bool
  now : Int

/-- `validator::SignerContext`: whose key material a failure concerns. -/
inductive SignerContext where
  | issuer : SignerContext
  | holder : SignerContext

/-- The variants of `validator::JwtValidationError` the embedded code
constructs or propagates. -/
inductive JwtValidationError where
  | identifierMismatch (signer_ctx : SignerContext) : JwtValidationError
  | documentMismatch (signer_ctx : SignerContext) : JwtValidationError
  | methodDataLookupError (message : String) (signer_ctx : SignerContext) : JwtValidationError
  | signature (signer_ctx : SignerContext) : JwtValidationError
  | jwsDecodingError : JwtValidationError
  | otherError (tag : String) : JwtValidationError

/-- The variants of the external `sd_jwt::Error` the embedded code constructs:
`InvalidHasher` carries the validator's hasher name. -/
inductive SdJwtError where
  | invalidHasher (name : String) : SdJwtError
  | otherError (tag : String) : SdJwtError

/-- `UnexpectedValue` from `validator/sd_jwt/error.rs`: an optional expected
value and the value that was found. -/
structure UnexpectedValue where
  expected : Option String
  found : String

/-- `KeyBindingJwtError` from `validator/sd_jwt/error.rs`. -/
inductive KeyBindingJwtError where
  | jwtValidationError (e : JwtValidationError) : KeyBindingJwtError
  | deserializationError : KeyBindingJwtError
  | sdJwtError (e : SdJwtError) : KeyBindingJwtError
  | unsupportedCnfMethod : KeyBindingJwtError
  | invalidDigest (v : UnexpectedValue) : KeyBindingJwtError
  | invalidNonce (v : UnexpectedValue) : KeyBindingJwtError
  | audienceMismatch (v : UnexpectedValue) : KeyBindingJwtError
  | issuanceDate (reason : String) : KeyBindingJwtError
  | missingKeyBindingJwt : KeyBindingJwtError
  | invalidHeaderTypValue (v : UnexpectedValue) : KeyBindingJwtError

/-- Timestamps are Unix seconds (`identity_core::common::Timestamp` serializes
through `to_unix`). -/
abbrev Timestamp := Int

/-- Modelled from the spec: `Timestamp::from_unix` (identity_core, not under
the vendored sources) parses an integer of Unix seconds, failing outside the
representable RFC3339 range (years 0000 to 9999). -/
def Timestamp.from_unix (i : Int) : Option Timestamp :=
  if -62167219200 ≤ i ∧ i ≤ 253402300799 then some i else none

/-- `Timestamp::to_unix`. -/
def Timestamp.to_unix (t : Timestamp) : Int := t

/-- `KeyBindingJwtValidationOptions` from `kb_validation_options.rs`. -/
structure KeyBindingJwtValidationOptions where
  nonce : Option String
  aud : Option String
  earliest_issuance_date : Option Timestamp
  latest_issuance_date : Option Timestamp

/-- Resolution of the holder's public key from the required key binding
(`validate_key_binding_jwt`, the `match required_kb` block): a `jwk` value is
deserialized and used directly; a `kid` value is parsed as a DID URL, its DID
must equal the holder document's `id`, and the referenced method's JWK is
extracted; any other variant is `UnsupportedCnfMethod`. -/
def resolve_holder_key (env : KbEnv) (required_kb : RequiredKeyBinding)
    (holder_document : CoreDocument) : Except KeyBindingJwtError Jwk :=
  match required_kb with
  | .jwk jwk =>
    match env.jwk_from_json jwk with
    | some k => .ok k
    | none => .error .deserializationError
  | .kid kid =>
    match env.did_url_parse kid with
    | none =>
      .error (.jwtValidationError
        (.methodDataLookupError "could not parse kid as a DID Url" .holder))
    | some method_id =>
      if holder_document.id ≠ method_id.did then
        .error (.jwtValidationError (.documentMismatch .holder))
      else
        match (holder_document.resolve_method method_id).bind
            (fun method => method.public_key_jwk) with
        | some k => .ok k
        | none =>
          .error (.jwtValidationError
            (.methodDataLookupError
              "could not extract JWK from a method identified by kid" .holder))
  | .other => .error .unsupportedCnfMethod

/-- The `nonce` comparison of `validate_key_binding_jwt`: when
`options.nonce` is set it must equal the KB-JWT's `nonce` claim. -/
def check_nonce (options : KeyBindingJwtValidationOptions)
    (kb_claims : KeyBindingJwtClaims) : Except KeyBindingJwtError Unit :=
  match options.nonce with
  | some nonce =>
    if nonce ≠ kb_claims.nonce then
      .error (.invalidNonce ⟨some nonce, kb_claims.nonce⟩)
    else .ok ()
  | none => .ok ()

/-- The `aud` comparison of `validate_key_binding_jwt`: when `options.aud` is
set it must equal the KB-JWT's `aud` claim. -/
def check_aud (options : KeyBindingJwtValidationOptions)
    (kb_claims : KeyBindingJwtClaims) : Except KeyBindingJwtError Unit :=
  match options.aud with
  | some aud =>
    if aud ≠ kb_claims.aud then
      .error (.audienceMismatch ⟨some aud, kb_claims.aud⟩)
    else .ok ()
  | none => .ok ()

/-- The `latest_issuance_date` / current-time tail of the `iat` validation: a
set `latest_issuance_date` rejects later timestamps, otherwise timestamps later
than the current time are rejected. -/
def check_iat_latest (options : KeyBindingJwtValidationOptions) (now : Int)
    (issuance_date : Timestamp) : Except KeyBindingJwtError Unit :=
  match options.latest_issuance_date with
  | some latest_issuance_date =>
    if issuance_date > latest_issuance_date then
      .error (.issuanceDate "value is later than `latest_issuance_date`")
    else .ok ()
  | none =>
    if issuance_date > now then
      .error (.issuanceDate "value is in the future")
    else .ok ()

/-- The `iat` validation of `validate_key_binding_jwt`: parse `iat` into a
timestamp, then check it against `earliest_issuance_date`,
`latest_issuance_date` and the current time. -/
def check_iat (options : KeyBindingJwtValidationOptions) (now : Int)
    (iat : Int) : Except KeyBindingJwtError Unit :=
  match Timestamp.from_unix iat with
  | none => .error (.issuanceDate "deserialization of `iat` failed")
  | some issuance_date =>
    match options.earliest_issuance_date with
    | some earliest_issuance_date =>
      if issuance_date < earliest_issuance_date then
        .error (.issuanceDate "value is earlier than `earliest_issuance_date`")
      else check_iat_latest options now issuance_date
    | none => check_iat_latest options now issuance_date

/-- The checks of `validate_key_binding_jwt` that follow the `sd_hash`
comparison: `nonce`, `aud`, then `iat`, in source order. -/
def kb_post_digest_checks (env : KbEnv) (options : KeyBindingJwtValidationOptions)
    (kb_jwt : KeyBindingJwt) : Except KeyBindingJwtError Unit :=
  match check_nonce options kb_jwt.claims with
  | .error e => .error e
  | .ok _ =>
    match check_aud options kb_jwt.claims with
    | .error e => .error e
    | .ok _ => check_iat options env.now kb_jwt.claims.iat

/-- `SdJwtCredentialValidator::validate_key_binding_jwt`
(`validator/sd_jwt/validator.rs`): succeed early when no key binding is
required; require an attached KB-JWT; resolve the holder key from `cnf`;
decode and verify the KB-JWT signature; check the header `typ`; require the
token's `_sd_alg` (defaulting to `sha-256`) to equal the hasher's name; compare
the KB-JWT's `sd_hash` with the digest of the token's string form up to and
including the last `~`; then check `nonce`, `aud` and `iat`.

The `typ` step is modelled from the spec: in the source it is performed by the
KB-JWT machinery of the external `sd_jwt` crate, outside the vendored sources;
the spec requires "Reject header `typ ≠ kb+jwt`", surfaced as the
`InvalidHeaderTypValue` error of `validator/sd_jwt/error.rs`. -/
def validate_key_binding_jwt (env : KbEnv) (hasher : Hasher) (sd_jwt : SdJwt)
    (holder_document : CoreDocument) (options : KeyBindingJwtValidationOptions) :
    Except KeyBindingJwtError Unit :=
  match sd_jwt.claims.cnf with
  | none => .ok ()
  | some required_kb =>
    match sd_jwt.key_binding_jwt with
    | none => .error .missingKeyBindingJwt
    | some kb_jwt =>
      match resolve_holder_key env required_kb holder_document with
      | .error e => .error e
      | .ok holder_pk =>
        match env.decode_jws kb_jwt.serialization with
        | none => .error (.jwtValidationError .jwsDecodingError)
        | some decoded =>
          if ¬ env.verify decoded holder_pk then
            .error (.jwtValidationError (.signature .holder))
          else if decoded.typ ≠ some "kb+jwt" then
            .error (.invalidHeaderTypValue ⟨some "kb+jwt", decoded.typ.getD ""⟩)
          else if sd_jwt.claims._sd_alg.getD SHA_ALG_NAME ≠ hasher.alg_name then
            .error (.sdJwtError (.invalidHasher hasher.alg_name))
          else
            let digest := hasher.encoded_digest sd_jwt.sdHashInput
            if kb_jwt.claims.sd_hash ≠ digest then
              .error (.invalidDigest ⟨some digest, kb_jwt.claims.sd_hash⟩)
            else kb_post_digest_checks env options kb_jwt

/-- Modelled from the spec: a W3C v1 credential, treated opaquely; shaping and
the option-driven checks are consumed as external stages. -/
structure Credential where
  value : Json

/-- Modelled from the spec: a W3C v2 credential, treated opaquely. -/
structure CredentialV2 where
  value : Json

/-- `SdJwtCredentialValidatorError` from `validator/sd_jwt/validator.rs`. -/
inductive SdJwtCredentialValidatorError where
  | credentialStructure : SdJwtCredentialValidatorError
  | jwsVerification (e : JwtValidationError) : SdJwtCredentialValidatorError
  | sdJwt (e : SdJwtError) : SdJwtCredentialValidatorError

/-- The external stages `validate_credential` / `validate_credential_v2`
consume: JWS signature verification resolving the signing method
(`verify_signature_impl`), disclosed-object reconstruction
(`SdJwt::into_disclosed_object`), credential shaping, the option-driven checks
(`validate_decoded_credential`, first error only), and issuer extraction
(`JwtCredentialValidatorUtils::extract_issuer`). -/
structure CredEnv where
  verify_signature_impl : String → Except JwtValidationError DIDUrl
  into_disclosed_object : SdJwt → Hasher → Except SdJwtError JsonObject
  credential_from_claims : JsonObject → Option Credential
  credential_v2_from_json : JsonObject → Option CredentialV2
  validate_decoded_credential : Credential → Except JwtValidationError Unit
  validate_decoded_credential_v2 : CredentialV2 → Except JwtValidationError Unit
  extract_issuer : Credential → Except JwtValidationError CoreDID
  extract_issuer_v2 : CredentialV2 → Except JwtValidationError CoreDID

/-- `SdJwtCredentialValidator::validate_credential`: verify the issuer JWS of
the presentation (remembering the verification method's DID URL), reconstruct
the disclosed claims, shape them into a credential, run the option-driven
checks, then require the DID of the credential's issuer to equal the DID of
the verification method that verified the JWS. -/
def validate_credential (env : CredEnv) (hasher : Hasher) (sd_jwt : SdJwt) :
    Except SdJwtCredentialValidatorError Credential :=
  match env.verify_signature_impl sd_jwt.serialization with
  | .error e => .error (.jwsVerification e)
  | .ok vm_id =>
    match env.into_disclosed_object sd_jwt hasher with
    | .error e => .error (.sdJwt e)
    | .ok disclosed_claims =>
      match env.credential_from_claims disclosed_claims with
      | none => .error .credentialStructure
      | some credential =>
        match env.validate_decoded_credential credential with
        | .error e => .error (.jwsVerification e)
        | .ok _ =>
          match env.extract_issuer credential with
          | .error e => .error (.jwsVerification e)
          | .ok issuer_id =>
            if issuer_id ≠ vm_id.did then
              .error (.jwsVerification (.identifierMismatch .issuer))
            else .ok credential

/-- `SdJwtCredentialValidator::validate_credential_v2`: as
`validate_credential`, shaping into a v2 credential. -/
def validate_credential_v2 (env : CredEnv) (hasher : Hasher) (sd_jwt : SdJwt) :
    Except SdJwtCredentialValidatorError CredentialV2 :=
  match env.verify_signature_impl sd_jwt.serialization with
  | .error e => .error (.jwsVerification e)
  | .ok vm_id =>
    match env.into_disclosed_object sd_jwt hasher with
    | .error e => .error (.sdJwt e)
    | .ok disclosed_claims =>
      match env.credential_v2_from_json disclosed_claims with
      | none => .error .credentialStructure
      | some credential =>
        match env.validate_decoded_credential_v2 credential with
        | .error e => .error (.jwsVerification e)
        | .ok _ =>
          match env.extract_issuer_v2 credential with
          | .error e => .error (.jwsVerification e)
          | .ok issuer_id =>
            if issuer_id ≠ vm_id.did then
              .error (.jwsVerification (.identifierMismatch .issuer))
            else .ok credential

/-- Modelled from the spec: `identity_core::common::Url` (not under the
vendored sources). The spec only requires that `iss` "must parse as URL";
parsing is modelled as a validity check (URLs carry a scheme, so the string
must contain a colon) that keeps the string, serializing back to it. -/
structure Url where
  raw : String

/-- Modelled from the spec: `Url::parse`. -/
def Url.parse (s : String) : Option Url :=
  if s.data.contains ':' then some ⟨s⟩ else none

/-- `Url`'s string form. -/
def Url.toString (u : Url) : String := u.raw

/-- Modelled from the spec: `identity_core::common::StringOrUrl`, "URL or
string". -/
inductive StringOrUrl where
  | str (s : String) : StringOrUrl
  | url (u : Url) : StringOrUrl

/-- Modelled from the spec: `StringOrUrl::parse` prefers the URL reading and
falls back to the plain string, never failing. -/
def StringOrUrl.parse (s : String) : Option StringOrUrl :=
  some (match Url.parse s with
        | some u => .url u
        | none => .str s)

/-- The string underlying a `StringOrUrl` (its `Into<String>`). -/
def StringOrUrl.intoString : StringOrUrl → String
  | .str s => s
  | .url u => u.raw

/-- Modelled from the spec: the `sd_jwt_vc` status claim, "the credential's
status object" per the OAuth status list draft; deserialization accepts JSON
objects and is lossless. -/
structure Status where
  value : Json

/-- Modelled from the spec: deserializing a `Status` from a JSON value. -/
def Status.fromJson : Json → Option Status
  | .obj fields => some ⟨.obj fields⟩
  | _ => none

/-- Modelled from the spec: a parsed `sd_jwt::Disclosure`,
`(salt, claim_name : optional string, claim_value)`; `claim_name = None`
describes an array element. -/
structure Disclosure where
  salt : String
  claim_name : Option String
  claim_value : Json

/-- The variants of `sd_jwt_vc::Error` constructed by
`SdJwtVcClaims::try_from_sd_jwt_claims`. -/
inductive SdJwtVcError where
  | missingClaim (name : String) : SdJwtVcError
  | disclosedClaim (name : String) : SdJwtVcError
  | invalidClaimValue (name : String) (expected : String) (found : Json) : SdJwtVcError

/-- `SdJwtVcClaims` from `sd_jwt_vc/claims.rs`: the extracted JWT-level fields
plus the remaining SD-JWT claims. -/
structure SdJwtVcClaims where
  iss : Option Url
  nbf : Option Timestamp
  exp : Option Timestamp
  vct : String
  status : Option Status
  iat : Option Timestamp
  sub : Option StringOrUrl
  sd_jwt_claims : SdJwtClaims

/-- The `check_disclosed` closure of `try_from_sd_jwt_claims`: an error when
some disclosure in the list has the given claim name. -/
def check_disclosed (disclosures : List Disclosure) (claim_name : String) :
    Option SdJwtVcError :=
  if disclosures.any (fun disclosure => disclosure.claim_name = some claim_name) then
    some (.disclosedClaim claim_name)
  else none

/-- The `iss` step of `try_from_sd_jwt_claims`: remove `iss`; when present it
must be a string parsing as a URL, otherwise `InvalidClaimValue`. -/
def iss_step (claims : JsonObject) :
    Except SdJwtVcError (Option Url × JsonObject) :=
  match claims.get "iss" with
  | none => .ok (none, claims.removeKey "iss")
  | some value =>
    match value with
    | .str s =>
      match Url.parse s with
      | some u => .ok (some u, claims.removeKey "iss")
      | none => .error (.invalidClaimValue "iss" "URL" value)
    | _ => .error (.invalidClaimValue "iss" "URL" value)

/-- The shape of the `nbf` and `exp` steps of `try_from_sd_jwt_claims`: remove
the claim; when present it must be an integer Unix second, otherwise
`InvalidClaimValue`; when absent it must not appear among the disclosure
names, otherwise `DisclosedClaim`. -/
def timestamp_claim_checked_step (name : String) (claims : JsonObject)
    (disclosures : List Disclosure) :
    Except SdJwtVcError (Option Timestamp × JsonObject) :=
  match claims.get name with
  | some value =>
    match value with
    | .num n =>
      match Timestamp.from_unix n with
      | some t => .ok (some t, claims.removeKey name)
      | none => .error (.invalidClaimValue name "unix timestamp" value)
    | _ => .error (.invalidClaimValue name "unix timestamp" value)
  | none =>
    match check_disclosed disclosures name with
    | some err => .error err
    | none => .ok (none, claims.removeKey name)

/-- The `iat` step of `try_from_sd_jwt_claims`: as the `nbf`/`exp` shape but
without the disclosure check. -/
def timestamp_claim_step (name : String) (claims : JsonObject) :
    Except SdJwtVcError (Option Timestamp × JsonObject) :=
  match claims.get name with
  | some value =>
    match value with
    | .num n =>
      match Timestamp.from_unix n with
      | some t => .ok (some t, claims.removeKey name)
      | none => .error (.invalidClaimValue name "unix timestamp" value)
    | _ => .error (.invalidClaimValue name "unix timestamp" value)
  | none => .ok (none, claims.removeKey name)

/-- The `vct` step of `try_from_sd_jwt_claims`: `vct` must be present
(`MissingClaim` otherwise, turned into `DisclosedClaim` when `vct` appears
among the disclosure names) and must be a string. -/
def vct_step (claims : JsonObject) (disclosures : List Disclosure) :
    Except SdJwtVcError (String × JsonObject) :=
  match claims.get "vct" with
  | none => .error ((check_disclosed disclosures "vct").getD (.missingClaim "vct"))
  | some value =>
    match value with
    | .str s => .ok (s, claims.removeKey "vct")
    | _ => .error (.invalidClaimValue "vct" "String" value)

/-- The `status` step of `try_from_sd_jwt_claims`: when present it must
deserialize as a status object; when absent it must not appear among the
disclosure names. -/
def status_step (claims : JsonObject) (disclosures : List Disclosure) :
    Except SdJwtVcError (Option Status × JsonObject) :=
  match claims.get "status" with
  | some value =>
    match Status.fromJson value with
    | some st => .ok (some st, claims.removeKey "status")
    | none =>
      .error (.invalidClaimValue "status" "credential status object" value)
  | none =>
    match check_disclosed disclosures "status" with
    | some err => .error err
    | none => .ok (none, claims.removeKey "status")

/-- The `sub` step of `try_from_sd_jwt_claims`: remove `sub`; when present it
must be a string, read as URL-or-string. -/
def sub_step (claims : JsonObject) :
    Except SdJwtVcError (Option StringOrUrl × JsonObject) :=
  match claims.get "sub" with
  | none => .ok (none, claims.removeKey "sub")
  | some value =>
    match value with
    | .str s =>
      match StringOrUrl.parse s with
      | some su => .ok (some su, claims.removeKey "sub")
      | none => .error (.invalidClaimValue "sub" "String or URL" value)
    | _ => .error (.invalidClaimValue "sub" "String or URL" value)

/-- `SdJwtVcClaims::try_from_sd_jwt_claims` (`sd_jwt_vc/claims.rs`): extract
`iss`, `nbf`, `exp`, `vct`, `status`, `sub`, `iat` in source order, threading
the shrinking properties map, and keep the remainder. -/
def try_from_sd_jwt_claims (claims : SdJwtClaims) (disclosures : List Disclosure) :
    Except SdJwtVcError SdJwtVcClaims :=
  match iss_step claims.properties with
  | .error e => .error e
  | .ok (iss, p1) =>
    match timestamp_claim_checked_step "nbf" p1 disclosures with
    | .error e => .error e
    | .ok (nbf, p2) =>
      match timestamp_claim_checked_step "exp" p2 disclosures with
      | .error e => .error e
      | .ok (exp, p3) =>
        match vct_step p3 disclosures with
        | .error e => .error e
        | .ok (vct, p4) =>
          match status_step p4 disclosures with
          | .error e => .error e
          | .ok (status, p5) =>
            match sub_step p5 with
            | .error e => .error e
            | .ok (sub, p6) =>
              match timestamp_claim_step "iat" p6 with
              | .error e => .error e
              | .ok (iat, p7) =>
                .ok { iss, nbf, exp, vct, status, iat, sub,
                      sd_jwt_claims := { claims with properties := p7 } }

/-- Insertion of an optional value: the map is unchanged when the value is
absent (the `option.and_then(|x| map.insert(name, f(x)))` shape of the
conversion back to SD-JWT claims). -/
def optInsert (o : JsonObject) (k : String) (x : Option Json) : JsonObject :=
  match x with
  | some v => o.insertKV k v
  | none => o

/-- The `From<SdJwtVcClaims> for SdJwtClaims` conversion
(`sd_jwt_vc/claims.rs`): re-insert each extracted field under its claim name
(timestamps through `to_unix`; `iss`, `sub`, `vct` as strings; `status` as its
JSON value) into the remaining claims. -/
def sd_jwt_claims_from_vc (claims : SdJwtVcClaims) : SdJwtClaims :=
  let p := claims.sd_jwt_claims.properties
  let p := optInsert p "iss" (claims.iss.map (fun iss => .str iss.toString))
  let p := optInsert p "nbf" (claims.nbf.map (fun t => .num t.to_unix))
  let p := optInsert p "exp" (claims.exp.map (fun t => .num t.to_unix))
  let p := p.insertKV "vct" (.str claims.vct)
  let p := optInsert p "status" (claims.status.map (fun status => status.value))
  let p := optInsert p "iat" (claims.iat.map (fun t => .num t.to_unix))
  let p := optInsert p "sub" (claims.sub.map (fun sub => .str sub.intoString))
  { claims.sd_jwt_claims with properties := p }

theorem dropWhile_append_of_forall (p : Char → Bool) (l₁ l₂ : List Char)
    (h : ∀ x ∈ l₁, p x = true) :
    (l₁ ++ l₂).dropWhile p = l₂.dropWhile p := by
  induction l₁ with
  | nil => rfl
  | cons a l ih =>
    have ha : p a = true := h a (List.mem_cons_self a l)
    rw [List.cons_append, List.dropWhile_cons]
    simp only [ha, if_true]
    exact ih (fun x hx => h x (List.mem_cons_of_mem a hx))

theorem takeThroughLast_append (X w : List Char) (hw : '~' ∉ w) :
    takeThroughLast '~' ((X ++ ['~']) ++ w) = X ++ ['~'] := by
  unfold takeThroughLast
  rw [List.reverse_append]
  rw [dropWhile_append_of_forall _ _ _ ?_]
  · rw [List.reverse_append]
    simp [List.dropWhile_cons]
  · intro x hx
    rw [List.mem_reverse] at hx
    simp only [decide_eq_true_eq]
    exact fun hcontra => hw (hcontra ▸ hx)

theorem head_data_ends_with_tilde (s : String) (l : List String) :
    ∃ X, (s ++ "~" ++ tildeSeparated l).data = X ++ ['~'] := by
  induction l generalizing s with
  | nil =>
    refine ⟨s.data, ?_⟩
    show s.data ++ ['~'] ++ ([] : List Char) = s.data ++ ['~']
    simp
  | cons d rest ih =>
    obtain ⟨X, hX⟩ := ih (s ++ "~" ++ d)
    refine ⟨X, ?_⟩
    show s.data ++ ['~'] ++ (d.data ++ ['~'] ++ (tildeSeparated rest).data) = X ++ ['~']
    have hX' : s.data ++ ['~'] ++ d.data ++ ['~'] ++ (tildeSeparated rest).data = X ++ ['~'] := hX
    rw [← hX']
    simp [List.append_assoc]

/-- When a KB-JWT (a compact JWS, hence tilde-free) is attached, the byte range
the validator digests is exactly the head of the token: everything before the
KB-JWT, through the last `~`. -/
theorem sdHashInput_eq_head (t : SdJwt) (kb : KeyBindingJwt)
    (hkb : t.key_binding_jwt = some kb) (hw : '~' ∉ kb.serialization.data) :
    t.sdHashInput = t.head := by
  obtain ⟨X, hX⟩ := head_data_ends_with_tilde t.jws t.disclosures
  have hs : t.serialization = t.head ++ kb.serialization := by
    unfold SdJwt.serialization
    rw [hkb]
  unfold SdJwt.sdHashInput
  rw [hs]
  show String.mk (takeThroughLast '~' (t.head.data ++ kb.serialization.data)) = t.head
  have hXd : t.head.data = X ++ ['~'] := hX
  rw [hXd, takeThroughLast_append X _ hw, ← hXd]

/-- Propagation of holder-key resolution failures through
`validate_key_binding_jwt`. -/
theorem validate_kb_resolve_error (env : KbEnv) (hasher : Hasher) (sd_jwt : SdJwt)
    (holder_document : CoreDocument) (options : KeyBindingJwtValidationOptions)
    (rkb : RequiredKeyBinding) (kb : KeyBindingJwt) (e : KeyBindingJwtError)
    (hcnf : sd_jwt.claims.cnf = some rkb)
    (hkb : sd_jwt.key_binding_jwt = some kb)
    (hres : resolve_holder_key env rkb holder_document = .error e) :
    validate_key_binding_jwt env hasher sd_jwt holder_document options = .error e := by
  unfold validate_key_binding_jwt
  simp only [hcnf, hkb, hres]

/-- Once the key binding is required, the KB-JWT present, the holder key
resolved, the KB-JWT decoded, its signature verified and its header `typ`
accepted, `validate_key_binding_jwt` is exactly the `_sd_alg`, `sd_hash`,
`nonce`, `aud`, `iat` check chain. -/
theorem validate_kb_at_alg_check (env : KbEnv) (hasher : Hasher) (sd_jwt : SdJwt)
    (holder_document : CoreDocument) (options : KeyBindingJwtValidationOptions)
    (rkb : RequiredKeyBinding) (kb : KeyBindingJwt) (pk : Jwk) (decoded : DecodedJws)
    (hcnf : sd_jwt.claims.cnf = some rkb)
    (hkb : sd_jwt.key_binding_jwt = some kb)
    (hres : resolve_holder_key env rkb holder_document = .ok pk)
    (hdec : env.decode_jws kb.serialization = some decoded)
    (hver : env.verify decoded pk = true)
    (htyp : decoded.typ = some "kb+jwt") :
    validate_key_binding_jwt env hasher sd_jwt holder_document options =
      (if sd_jwt.claims._sd_alg.getD SHA_ALG_NAME ≠ hasher.alg_name then
        .error (.sdJwtError (.invalidHasher hasher.alg_name))
      else if kb.claims.sd_hash ≠ hasher.encoded_digest sd_jwt.sdHashInput then
        .error (.invalidDigest ⟨some (hasher.encoded_digest sd_jwt.sdHashInput),
                                kb.claims.sd_hash⟩)
      else kb_post_digest_checks env options kb) := by
  unfold validate_key_binding_jwt
  simp only [hcnf, hkb, hres, hdec, hver, htyp]
  simp

/-- A concrete hasher for witnesses. -/
def sampleHasher : Hasher := ⟨"sha-256", fun s => "H(" ++ s ++ ")"⟩

/-- A concrete capability environment for witnesses: every lookup succeeds and
the verifier accepts. -/
def sampleEnv : KbEnv :=
  ⟨fun s => some ⟨"did:ex:holder", s⟩, fun o => some ⟨o⟩,
   fun _ => some ⟨some "kb+jwt"⟩, fun _ _ => true, 100⟩

/-- A concrete holder document for witnesses. -/
def sampleDoc : CoreDocument := ⟨"did:ex:holder", fun _ => some ⟨some ⟨[]⟩⟩⟩

/-- Empty validation options for witnesses. -/
def sampleOptions : KeyBindingJwtValidationOptions := ⟨none, none, none, none⟩

/-- A concrete KB-JWT for witnesses. -/
def sampleKb (sd_hash : String) (iat : Int) : KeyBindingJwt :=
  ⟨"KBWIRE", ⟨iat, "aud0", "nonce0", sd_hash⟩⟩

/-- A concrete SD-JWT token for witnesses: JWS `jws0`, one disclosure `d1`. -/
def sampleToken (kb : Option KeyBindingJwt) (cnf : Option RequiredKeyBinding) : SdJwt :=
  ⟨"jws0", ["d1"], kb, ⟨[], none, cnf, []⟩⟩

/-- Claim C6: `validate_key_binding_jwt` succeeds without any further check
when the token carries no required key binding (`cnf` absent), and fails with
`MissingKeyBindingJwt` when a key binding is required but no KB-JWT is
attached. -/
theorem C6_kb_requirement_gate (env : KbEnv) (hasher : Hasher) (sd_jwt : SdJwt)
    (holder_document : CoreDocument) (options : KeyBindingJwtValidationOptions) :
    (sd_jwt.claims.cnf = none →
      validate_key_binding_jwt env hasher sd_jwt holder_document options = .ok ())
    ∧ (sd_jwt.claims.cnf.isSome = true → sd_jwt.key_binding_jwt = none →
      validate_key_binding_jwt env hasher sd_jwt holder_document options =
        .error .missingKeyBindingJwt) := by
  constructor
  · intro h
    unfold validate_key_binding_jwt
    simp only [h]
  · intro h1 h2
    obtain ⟨rkb, hrkb⟩ := Option.isSome_iff_exists.mp h1
    unfold validate_key_binding_jwt
    simp only [hrkb, h2]

theorem C6_witness :
    validate_key_binding_jwt sampleEnv sampleHasher (sampleToken none none)
      sampleDoc sampleOptions = .ok ()
    ∧ validate_key_binding_jwt sampleEnv sampleHasher
        (sampleToken none (some .other)) sampleDoc sampleOptions =
      .error .missingKeyBindingJwt :=
  ⟨(C6_kb_requirement_gate sampleEnv sampleHasher (sampleToken none none)
      sampleDoc sampleOptions).1 rfl,
   (C6_kb_requirement_gate sampleEnv sampleHasher (sampleToken none (some .other))
      sampleDoc sampleOptions).2 rfl rfl⟩

/-- Claim C3: with a required key binding and an attached KB-JWT whose
signature verifies, `validate_key_binding_jwt` rejects a KB-JWT whose JWS
header `typ` is not `kb+jwt`, surfacing `InvalidHeaderTypValue` (the `typ`
handling is modelled from the spec, as the source delegates it to the
external KB-JWT machinery). -/
theorem C3_kb_header_typ (env : KbEnv) (hasher : Hasher) (sd_jwt : SdJwt)
    (holder_document : CoreDocument) (options : KeyBindingJwtValidationOptions)
    (rkb : RequiredKeyBinding) (kb : KeyBindingJwt) (pk : Jwk) (decoded : DecodedJws)
    (hcnf : sd_jwt.claims.cnf = some rkb)
    (hkb : sd_jwt.key_binding_jwt = some kb)
    (hres : resolve_holder_key env rkb holder_document = .ok pk)
    (hdec : env.decode_jws kb.serialization = some decoded)
    (hver : env.verify decoded pk = true)
    (htyp : decoded.typ ≠ some "kb+jwt") :
    validate_key_binding_jwt env hasher sd_jwt holder_document options =
      .error (.invalidHeaderTypValue ⟨some "kb+jwt", decoded.typ.getD ""⟩) := by
  unfold validate_key_binding_jwt
  simp only [hcnf, hkb, hres, hdec, hver]
  simp [htyp]

/-- A concrete environment whose decoder reports header `typ = JWT`. -/
def sampleEnvBadTyp : KbEnv :=
  { sampleEnv with decode_jws := fun _ => some ⟨some "JWT"⟩ }

theorem C3_witness :
    validate_key_binding_jwt sampleEnvBadTyp sampleHasher
      (sampleToken (some (sampleKb "H(jws0~d1~)" 50)) (some (.jwk [])))
      sampleDoc sampleOptions =
      .error (.invalidHeaderTypValue ⟨some "kb+jwt", "JWT"⟩) :=
  C3_kb_header_typ sampleEnvBadTyp sampleHasher
    (sampleToken (some (sampleKb "H(jws0~d1~)" 50)) (some (.jwk [])))
    sampleDoc sampleOptions (.jwk []) (sampleKb "H(jws0~d1~)" 50) ⟨[]⟩ ⟨some "JWT"⟩
    rfl rfl rfl rfl rfl (by decide)

/-- Claim C1: with a required key binding, an attached KB-JWT whose signature
and header pass and a matching `_sd_alg`, the validator digests the token's
string form up to and including the last `~` (which, the KB-JWT being
tilde-free, is the token's head); a KB-JWT whose `sd_hash` differs fails with
`InvalidDigest` carrying the computed digest as expected and the KB-JWT's
`sd_hash` as found, and validation proceeds to the remaining checks exactly
when they are equal. -/
theorem C1_kb_sd_hash_digest_binding (env : KbEnv) (hasher : Hasher)
    (sd_jwt : SdJwt) (holder_document : CoreDocument)
    (options : KeyBindingJwtValidationOptions)
    (rkb : RequiredKeyBinding) (kb : KeyBindingJwt) (pk : Jwk) (decoded : DecodedJws)
    (hcnf : sd_jwt.claims.cnf = some rkb)
    (hkb : sd_jwt.key_binding_jwt = some kb)
    (hres : resolve_holder_key env rkb holder_document = .ok pk)
    (hdec : env.decode_jws kb.serialization = some decoded)
    (hver : env.verify decoded pk = true)
    (htyp : decoded.typ = some "kb+jwt")
    (halg : sd_jwt.claims._sd_alg.getD SHA_ALG_NAME = hasher.alg_name)
    (hw : ('~' : Char) ∉ kb.serialization.data) :
    sd_jwt.sdHashInput = sd_jwt.head
    ∧ (kb.claims.sd_hash ≠ hasher.encoded_digest sd_jwt.sdHashInput →
        validate_key_binding_jwt env hasher sd_jwt holder_document options =
          .error (.invalidDigest ⟨some (hasher.encoded_digest sd_jwt.sdHashInput),
                                  kb.claims.sd_hash⟩))
    ∧ (kb.claims.sd_hash = hasher.encoded_digest sd_jwt.sdHashInput →
        validate_key_binding_jwt env hasher sd_jwt holder_document options =
          kb_post_digest_checks env options kb) := by
  have hstage := validate_kb_at_alg_check env hasher sd_jwt holder_document options
    rkb kb pk decoded hcnf hkb hres hdec hver htyp
  rw [if_neg (not_ne_iff.mpr halg)] at hstage
  refine ⟨sdHashInput_eq_head sd_jwt kb hkb hw, ?_, ?_⟩
  · intro hne
    rw [hstage, if_pos hne]
  · intro heq
    rw [hstage, if_neg (not_ne_iff.mpr heq)]

theorem C1_witness :
    (sampleToken (some (sampleKb "WRONG" 50)) (some (.jwk []))).sdHashInput =
      (sampleToken (some (sampleKb "WRONG" 50)) (some (.jwk []))).head
    ∧ validate_key_binding_jwt sampleEnv sampleHasher
        (sampleToken (some (sampleKb "WRONG" 50)) (some (.jwk [])))
        sampleDoc sampleOptions =
      .error (.invalidDigest ⟨some "H(jws0~d1~)", "WRONG"⟩) :=
  have h := C1_kb_sd_hash_digest_binding sampleEnv sampleHasher
    (sampleToken (some (sampleKb "WRONG" 50)) (some (.jwk [])))
    sampleDoc sampleOptions (.jwk []) (sampleKb "WRONG" 50) ⟨[]⟩ ⟨some "kb+jwt"⟩
    rfl rfl rfl rfl rfl rfl rfl (by decide)
  ⟨h.1, h.2.1 (by decide)⟩

/-- The post-digest chain succeeds exactly when the nonce, audience and
issuance-date checks each succeed. -/
theorem kb_post_digest_checks_isOk (env : KbEnv)
    (options : KeyBindingJwtValidationOptions) (kb : KeyBindingJwt) :
    (kb_post_digest_checks env options kb).isOk = true ↔
      ((check_nonce options kb.claims).isOk = true
       ∧ (check_aud options kb.claims).isOk = true
       ∧ (check_iat options env.now kb.claims.iat).isOk = true) := by
  unfold kb_post_digest_checks
  cases hn : check_nonce options kb.claims with
  | error e => simp [Except.isOk, Except.toBool]
  | ok u =>
    cases ha : check_aud options kb.claims with
    | error e => simp [Except.isOk, Except.toBool]
    | ok u' => simp [Except.isOk, Except.toBool]

/-- Claim C2: with a required key binding, an attached KB-JWT that decodes,
verifies and carries the `kb+jwt` header, validation succeeds exactly when the
token's `_sd_alg` (defaulting to `sha-256`) equals the hasher's name and the
`sd_hash`, nonce, audience and issuance-date checks all pass; in particular a
token whose `_sd_alg` differs from the configured hasher's name is always
rejected, with `InvalidHasher` carrying the hasher's name. -/
theorem C2_hasher_lockstep (env : KbEnv) (hasher : Hasher) (sd_jwt : SdJwt)
    (holder_document : CoreDocument) (options : KeyBindingJwtValidationOptions)
    (rkb : RequiredKeyBinding) (kb : KeyBindingJwt) (pk : Jwk) (decoded : DecodedJws)
    (hcnf : sd_jwt.claims.cnf = some rkb)
    (hkb : sd_jwt.key_binding_jwt = some kb)
    (hres : resolve_holder_key env rkb holder_document = .ok pk)
    (hdec : env.decode_jws kb.serialization = some decoded)
    (hver : env.verify decoded pk = true)
    (htyp : decoded.typ = some "kb+jwt") :
    ((validate_key_binding_jwt env hasher sd_jwt holder_document options).isOk = true ↔
      (sd_jwt.claims._sd_alg.getD SHA_ALG_NAME = hasher.alg_name
       ∧ kb.claims.sd_hash = hasher.encoded_digest sd_jwt.sdHashInput
       ∧ (check_nonce options kb.claims).isOk = true
       ∧ (check_aud options kb.claims).isOk = true
       ∧ (check_iat options env.now kb.claims.iat).isOk = true))
    ∧ (sd_jwt.claims._sd_alg.getD SHA_ALG_NAME ≠ hasher.alg_name →
        validate_key_binding_jwt env hasher sd_jwt holder_document options =
          .error (.sdJwtError (.invalidHasher hasher.alg_name))) := by
  have hstage := validate_kb_at_alg_check env hasher sd_jwt holder_document options
    rkb kb pk decoded hcnf hkb hres hdec hver htyp
  constructor
  · rw [hstage]
    by_cases halg : sd_jwt.claims._sd_alg.getD SHA_ALG_NAME = hasher.alg_name
    · rw [if_neg (not_ne_iff.mpr halg)]
      by_cases hd : kb.claims.sd_hash = hasher.encoded_digest sd_jwt.sdHashInput
      · rw [if_neg (not_ne_iff.mpr hd)]
        rw [kb_post_digest_checks_isOk]
        simp [halg, hd]
      · rw [if_pos hd]
        simp [Except.isOk, Except.toBool, hd]
    · rw [if_pos halg]
      simp [Except.isOk, Except.toBool, halg]
  · intro halg
    rw [hstage, if_pos halg]

theorem C2_witness :
    ((validate_key_binding_jwt sampleEnv sampleHasher
        (sampleToken (some (sampleKb "H(jws0~d1~)" 50)) (some (.jwk [])))
        sampleDoc sampleOptions).isOk = true ↔
      ("sha-256" = "sha-256"
       ∧ "H(jws0~d1~)" = "H(jws0~d1~)"
       ∧ (check_nonce sampleOptions ⟨50, "aud0", "nonce0", "H(jws0~d1~)"⟩).isOk = true
       ∧ (check_aud sampleOptions ⟨50, "aud0", "nonce0", "H(jws0~d1~)"⟩).isOk = true
       ∧ (check_iat sampleOptions 100 50).isOk = true))
    ∧ ("sha-256" ≠ "sha-256" →
        validate_key_binding_jwt sampleEnv sampleHasher
          (sampleToken (some (sampleKb "H(jws0~d1~)" 50)) (some (.jwk [])))
          sampleDoc sampleOptions =
          .error (.sdJwtError (.invalidHasher "sha-256"))) :=
  C2_hasher_lockstep sampleEnv sampleHasher
    (sampleToken (some (sampleKb "H(jws0~d1~)" 50)) (some (.jwk [])))
    sampleDoc sampleOptions (.jwk []) (sampleKb "H(jws0~d1~)" 50) ⟨[]⟩
    ⟨some "kb+jwt"⟩ rfl rfl rfl rfl rfl rfl

/-- Claim C7: resolution of the holder key from `cnf`: a `kid` that does not
parse as a DID URL fails with `MethodDataLookupError`; a parsed kid whose DID
differs from the holder document's id fails with `DocumentMismatch{Holder}`;
otherwise the referenced method's JWK is extracted (failing with
`MethodDataLookupError` when absent); a `jwk` value is used directly; any
other `cnf` variant fails with `UnsupportedCnfMethod`. -/
theorem C7_cnf_resolution (env : KbEnv) (hasher : Hasher) (sd_jwt : SdJwt)
    (holder_document : CoreDocument) (options : KeyBindingJwtValidationOptions)
    (rkb : RequiredKeyBinding) (kb : KeyBindingJwt)
    (hcnf : sd_jwt.claims.cnf = some rkb)
    (hkb : sd_jwt.key_binding_jwt = some kb) :
    (∀ kid, rkb = .kid kid → env.did_url_parse kid = none →
      validate_key_binding_jwt env hasher sd_jwt holder_document options =
        .error (.jwtValidationError
          (.methodDataLookupError "could not parse kid as a DID Url" .holder)))
    ∧ (∀ kid method_id, rkb = .kid kid →
        env.did_url_parse kid = some method_id →
        holder_document.id ≠ method_id.did →
        validate_key_binding_jwt env hasher sd_jwt holder_document options =
          .error (.jwtValidationError (.documentMismatch .holder)))
    ∧ (∀ kid method_id, rkb = .kid kid →
        env.did_url_parse kid = some method_id →
        holder_document.id = method_id.did →
        ((holder_document.resolve_method method_id).bind
            (fun method => method.public_key_jwk) = none →
          validate_key_binding_jwt env hasher sd_jwt holder_document options =
            .error (.jwtValidationError
              (.methodDataLookupError
                "could not extract JWK from a method identified by kid" .holder)))
        ∧ (∀ jwk, (holder_document.resolve_method method_id).bind
              (fun method => method.public_key_jwk) = some jwk →
            resolve_holder_key env rkb holder_document = .ok jwk))
    ∧ (∀ jwk_obj jwk, rkb = .jwk jwk_obj → env.jwk_from_json jwk_obj = some jwk →
        resolve_holder_key env rkb holder_document = .ok jwk)
    ∧ (rkb = .other →
        validate_key_binding_jwt env hasher sd_jwt holder_document options =
          .error .unsupportedCnfMethod) := by
  refine ⟨?_, ?_, ?_, ?_, ?_⟩
  · intro kid hrkb hparse
    subst hrkb
    refine validate_kb_resolve_error env hasher sd_jwt holder_document options
      _ kb _ hcnf hkb ?_
    unfold resolve_holder_key
    simp only [hparse]
  · intro kid method_id hrkb hparse hne
    subst hrkb
    refine validate_kb_resolve_error env hasher sd_jwt holder_document options
      _ kb _ hcnf hkb ?_
    unfold resolve_holder_key
    simp only [hparse, if_pos hne]
  · intro kid method_id hrkb hparse heq
    subst hrkb
    constructor
    · intro hjwk
      refine validate_kb_resolve_error env hasher sd_jwt holder_document options
        _ kb _ hcnf hkb ?_
      unfold resolve_holder_key
      simp only [hparse, heq, hjwk]
      simp
    · intro jwk hjwk
      unfold resolve_holder_key
      simp only [hparse, heq, hjwk]
      simp
  · intro jwk_obj jwk hrkb hjwk
    subst hrkb
    unfold resolve_holder_key
    simp only [hjwk]
  · intro hrkb
    subst hrkb
    exact validate_kb_resolve_error env hasher sd_jwt holder_document options
      _ kb _ hcnf hkb rfl

/-- A concrete environment whose DID URL parser fails. -/
def sampleEnvBadKid : KbEnv :=
  { sampleEnv with did_url_parse := fun _ => none }

theorem C7_witness :
    validate_key_binding_jwt sampleEnvBadKid sampleHasher
      (sampleToken (some (sampleKb "H(jws0~d1~)" 50)) (some (.kid "not-a-did")))
      sampleDoc sampleOptions =
      .error (.jwtValidationError
        (.methodDataLookupError "could not parse kid as a DID Url" .holder)) :=
  (C7_cnf_resolution sampleEnvBadKid sampleHasher
    (sampleToken (some (sampleKb "H(jws0~d1~)" 50)) (some (.kid "not-a-did")))
    sampleDoc sampleOptions (.kid "not-a-did") (sampleKb "H(jws0~d1~)" 50)
    rfl rfl).1 "not-a-did" rfl rfl

/-- Claim C9: once the signature, hasher, `sd_hash`, nonce and audience checks
pass, validation is exactly the `iat` check: `iat` is parsed into a timestamp
(failing with `IssuanceDate` on parse failure); a set `earliest_issuance_date`
rejects earlier timestamps; a set `latest_issuance_date` rejects later
timestamps; with no `latest_issuance_date`, the validator fails with
`IssuanceDate("value is in the future")` exactly when `iat` is later than the
current time. -/
theorem C9_kb_iat_validation (env : KbEnv) (hasher : Hasher) (sd_jwt : SdJwt)
    (holder_document : CoreDocument) (options : KeyBindingJwtValidationOptions)
    (rkb : RequiredKeyBinding) (kb : KeyBindingJwt) (pk : Jwk) (decoded : DecodedJws)
    (hcnf : sd_jwt.claims.cnf = some rkb)
    (hkb : sd_jwt.key_binding_jwt = some kb)
    (hres : resolve_holder_key env rkb holder_document = .ok pk)
    (hdec : env.decode_jws kb.serialization = some decoded)
    (hver : env.verify decoded pk = true)
    (htyp : decoded.typ = some "kb+jwt")
    (halg : sd_jwt.claims._sd_alg.getD SHA_ALG_NAME = hasher.alg_name)
    (hdig : kb.claims.sd_hash = hasher.encoded_digest sd_jwt.sdHashInput)
    (hnonce : check_nonce options kb.claims = .ok ())
    (haud : check_aud options kb.claims = .ok ()) :
    validate_key_binding_jwt env hasher sd_jwt holder_document options =
      check_iat options env.now kb.claims.iat
    ∧ (Timestamp.from_unix kb.claims.iat = none →
        check_iat options env.now kb.claims.iat =
          .error (.issuanceDate "deserialization of `iat` failed"))
    ∧ (∀ issuance_date, Timestamp.from_unix kb.claims.iat = some issuance_date →
        (∀ e, options.earliest_issuance_date = some e → issuance_date < e →
          check_iat options env.now kb.claims.iat =
            .error (.issuanceDate "value is earlier than `earliest_issuance_date`"))
        ∧ ((∀ e, options.earliest_issuance_date = some e → ¬ issuance_date < e) →
            (∀ l, options.latest_issuance_date = some l →
              check_iat options env.now kb.claims.iat =
                (if issuance_date > l then
                  .error (.issuanceDate "value is later than `latest_issuance_date`")
                else .ok ()))
            ∧ (options.latest_issuance_date = none →
              check_iat options env.now kb.claims.iat =
                (if issuance_date > env.now then
                  .error (.issuanceDate "value is in the future")
                else .ok ())))) := by
  have hstage := validate_kb_at_alg_check env hasher sd_jwt holder_document options
    rkb kb pk decoded hcnf hkb hres hdec hver htyp
  rw [if_neg (not_ne_iff.mpr halg), if_neg (not_ne_iff.mpr hdig)] at hstage
  refine ⟨?_, ?_, ?_⟩
  · rw [hstage]
    unfold kb_post_digest_checks
    rw [hnonce, haud]
  · intro hparse
    unfold check_iat
    rw [hparse]
  · intro issuance_date hparse
    constructor
    · intro e he hlt
      unfold check_iat
      simp only [hparse, he, if_pos hlt]
    · intro hpass
      constructor
      · intro l hl
        unfold check_iat check_iat_latest
        cases hE : options.earliest_issuance_date with
        | none => simp only [hparse, hE, hl]
        | some e => simp only [hparse, hE, hl, if_neg (hpass e hE)]
      · intro hl
        unfold check_iat check_iat_latest
        cases hE : options.earliest_issuance_date with
        | none => simp only [hparse, hE, hl]
        | some e => simp only [hparse, hE, hl, if_neg (hpass e hE)]

theorem C9_witness :
    validate_key_binding_jwt sampleEnv sampleHasher
      (sampleToken (some (sampleKb "H(jws0~d1~)" 101)) (some (.jwk [])))
      sampleDoc sampleOptions =
      .error (.issuanceDate "value is in the future") := by
  have h := C9_kb_iat_validation sampleEnv sampleHasher
    (sampleToken (some (sampleKb "H(jws0~d1~)" 101)) (some (.jwk [])))
    sampleDoc sampleOptions (.jwk []) (sampleKb "H(jws0~d1~)" 101) ⟨[]⟩
    ⟨some "kb+jwt"⟩ rfl rfl rfl rfl rfl rfl rfl rfl rfl rfl
  have hfuture := ((h.2.2 101 (by decide)).2 (fun e he => by cases he)).2 rfl
  rw [h.1, hfuture]
  rfl

/-- Claim C5: when the issuer JWS verifies and the disclosed claims shape into
a credential passing the option-driven checks, `validate_credential` and
`validate_credential_v2` fail with `IdentifierMismatch{Issuer}` exactly when
the DID extracted from the credential's issuer differs from the DID of the
verification method that verified the JWS, and return the credential
otherwise. -/
theorem C5_issuer_binding (env : CredEnv) (hasher : Hasher) (sd_jwt : SdJwt)
    (vm_id : DIDUrl) (disclosed : JsonObject)
    (cred : Credential) (issuer_id : CoreDID)
    (cred2 : CredentialV2) (issuer_id2 : CoreDID)
    (h1 : env.verify_signature_impl sd_jwt.serialization = .ok vm_id)
    (h2 : env.into_disclosed_object sd_jwt hasher = .ok disclosed)
    (h3 : env.credential_from_claims disclosed = some cred)
    (h4 : env.validate_decoded_credential cred = .ok ())
    (h5 : env.extract_issuer cred = .ok issuer_id)
    (h3v : env.credential_v2_from_json disclosed = some cred2)
    (h4v : env.validate_decoded_credential_v2 cred2 = .ok ())
    (h5v : env.extract_issuer_v2 cred2 = .ok issuer_id2) :
    ((issuer_id ≠ vm_id.did →
        validate_credential env hasher sd_jwt =
          .error (.jwsVerification (.identifierMismatch .issuer)))
     ∧ (issuer_id = vm_id.did →
        validate_credential env hasher sd_jwt = .ok cred))
    ∧ ((issuer_id2 ≠ vm_id.did →
        validate_credential_v2 env hasher sd_jwt =
          .error (.jwsVerification (.identifierMismatch .issuer)))
     ∧ (issuer_id2 = vm_id.did →
        validate_credential_v2 env hasher sd_jwt = .ok cred2)) := by
  constructor
  · constructor
    · intro hne
      unfold validate_credential
      simp only [h1, h2, h3, h4, h5, if_pos hne]
    · intro heq
      unfold validate_credential
      simp only [h1, h2, h3, h4, h5, if_neg (not_ne_iff.mpr heq)]
  · constructor
    · intro hne
      unfold validate_credential_v2
      simp only [h1, h2, h3v, h4v, h5v, if_pos hne]
    · intro heq
      unfold validate_credential_v2
      simp only [h1, h2, h3v, h4v, h5v, if_neg (not_ne_iff.mpr heq)]

/-- A concrete credential-validation environment for witnesses: the JWS always
verifies under a method of `did:ex:issuer`, shaping succeeds and the issuer
extracted from the credential is the given DID. -/
def sampleCredEnv (issuer_id : CoreDID) : CredEnv :=
  ⟨fun _ => .ok ⟨"did:ex:issuer", ""⟩, fun _ _ => .ok [],
   fun o => some ⟨.obj o⟩, fun o => some ⟨.obj o⟩,
   fun _ => .ok (), fun _ => .ok (), fun _ => .ok issuer_id, fun _ => .ok issuer_id⟩

theorem C5_witness :
    validate_credential (sampleCredEnv "did:ex:evil") sampleHasher
      (sampleToken none none) = .error (.jwsVerification (.identifierMismatch .issuer))
    ∧ validate_credential (sampleCredEnv "did:ex:issuer") sampleHasher
      (sampleToken none none) = .ok ⟨.obj []⟩
    ∧ validate_credential_v2 (sampleCredEnv "did:ex:evil") sampleHasher
      (sampleToken none none) = .error (.jwsVerification (.identifierMismatch .issuer)) :=
  ⟨((C5_issuer_binding (sampleCredEnv "did:ex:evil") sampleHasher (sampleToken none none)
      ⟨"did:ex:issuer", ""⟩ [] ⟨.obj []⟩ "did:ex:evil" ⟨.obj []⟩ "did:ex:evil"
      rfl rfl rfl rfl rfl rfl rfl rfl).1).1 (by decide),
   ((C5_issuer_binding (sampleCredEnv "did:ex:issuer") sampleHasher (sampleToken none none)
      ⟨"did:ex:issuer", ""⟩ [] ⟨.obj []⟩ "did:ex:issuer" ⟨.obj []⟩ "did:ex:issuer"
      rfl rfl rfl rfl rfl rfl rfl rfl).1).2 rfl,
   ((C5_issuer_binding (sampleCredEnv "did:ex:evil") sampleHasher (sampleToken none none)
      ⟨"did:ex:issuer", ""⟩ [] ⟨.obj []⟩ "did:ex:evil" ⟨.obj []⟩ "did:ex:evil"
      rfl rfl rfl rfl rfl rfl rfl rfl).2).1 (by decide)⟩

theorem get_removeKey_ne (o : JsonObject) (k k' : String) (h : k ≠ k') :
    (o.removeKey k').get k = o.get k := by
  induction o with
  | nil => rfl
  | cons hd tl ih =>
    obtain ⟨k0, v0⟩ := hd
    by_cases h0 : k0 = k'
    · subst h0
      simp [JsonObject.removeKey, JsonObject.get, Ne.symm h]
    · simp only [JsonObject.removeKey, if_neg h0, JsonObject.get]
      by_cases h1 : k0 = k
      · simp [h1]
      · simp [h1, ih]

theorem get_removeKey_of_none (o : JsonObject) (k k' : String)
    (h : o.get k = none) : (o.removeKey k').get k = none := by
  induction o with
  | nil => rfl
  | cons hd tl ih =>
    obtain ⟨k0, v0⟩ := hd
    unfold JsonObject.get at h
    by_cases h1 : k0 = k
    · rw [if_pos h1] at h
      exact absurd h (by simp)
    · rw [if_neg h1] at h
      unfold JsonObject.removeKey
      by_cases h0 : k0 = k'
      · rw [if_pos h0]
        exact h
      · rw [if_neg h0]
        unfold JsonObject.get
        rw [if_neg h1]
        exact ih h

theorem get_insertKV_self (o : JsonObject) (k : String) (v : Json) :
    (o.insertKV k v).get k = some v := by
  induction o with
  | nil => simp [JsonObject.insertKV, JsonObject.get]
  | cons hd tl ih =>
    obtain ⟨k0, v0⟩ := hd
    by_cases h0 : k0 = k
    · simp [JsonObject.insertKV, JsonObject.get, h0]
    · simp [JsonObject.insertKV, JsonObject.get, h0, ih]

theorem get_insertKV_ne (o : JsonObject) (k k' : String) (v : Json) (h : k ≠ k') :
    (o.insertKV k' v).get k = o.get k := by
  induction o with
  | nil => simp [JsonObject.insertKV, JsonObject.get, Ne.symm h]
  | cons hd tl ih =>
    obtain ⟨k0, v0⟩ := hd
    by_cases h0 : k0 = k'
    · subst h0
      simp [JsonObject.insertKV, JsonObject.get, Ne.symm h]
    · simp only [JsonObject.insertKV, if_neg h0, JsonObject.get]
      by_cases h1 : k0 = k
      · simp [h1]
      · simp [h1, ih]

/-- A successfully parsed URL keeps the source string. -/
theorem Url.parse_raw (s : String) (u : Url) (h : Url.parse s = some u) :
    u.raw = s := by
  unfold Url.parse at h
  by_cases hc : s.data.contains ':'
  · rw [if_pos hc] at h
    cases h
    rfl
  · rw [if_neg hc] at h
    cases h

/-- A successfully parsed timestamp is its Unix-second source. -/
theorem Timestamp.from_unix_val (i : Int) (t : Timestamp)
    (h : Timestamp.from_unix i = some t) : t = i := by
  unfold Timestamp.from_unix at h
  by_cases hb : -62167219200 ≤ i ∧ i ≤ 253402300799
  · rw [if_pos hb] at h
    cases h
    rfl
  · rw [if_neg hb] at h
    cases h

/-- A successfully parsed status keeps the source JSON value. -/
theorem Status.fromJson_val (v : Json) (st : Status)
    (h : Status.fromJson v = some st) : st.value = v := by
  cases v with
  | obj fields =>
    unfold Status.fromJson at h
    cases h
    rfl
  | null => simp [Status.fromJson] at h
  | bool b => simp [Status.fromJson] at h
  | num n => simp [Status.fromJson] at h
  | str s => simp [Status.fromJson] at h
  | arr elems => simp [Status.fromJson] at h

/-- A successfully parsed URL-or-string keeps the source string. -/
theorem StringOrUrl.parse_intoString (s : String) (su : StringOrUrl)
    (h : StringOrUrl.parse s = some su) : su.intoString = s := by
  unfold StringOrUrl.parse at h
  cases h
  cases hp : Url.parse s with
  | none => simp [hp, StringOrUrl.intoString]
  | some u => simp [hp, StringOrUrl.intoString, Url.parse_raw s u hp]

/-- Inversion of the `iss` step: it shrinks the map by `iss` and either `iss`
was absent, or it was the string form of the parsed URL. -/
theorem iss_step_ok (o : JsonObject) (res : Option Url) (rest : JsonObject)
    (h : iss_step o = .ok (res, rest)) :
    rest = o.removeKey "iss"
    ∧ ((res = none ∧ o.get "iss" = none)
       ∨ (∃ u, res = some u ∧ o.get "iss" = some (.str u.raw))) := by
  unfold iss_step at h
  cases hg : o.get "iss" with
  | none =>
    simp only [hg] at h
    cases h
    exact ⟨rfl, Or.inl ⟨rfl, rfl⟩⟩
  | some value =>
    simp only [hg] at h
    cases value with
    | str s =>
      cases hp : Url.parse s with
      | none =>
        simp only [hp] at h
        exact (Except.noConfusion h)
      | some u =>
        simp only [hp] at h
        cases h
        exact ⟨rfl, Or.inr ⟨u, rfl, by rw [Url.parse_raw s u hp]⟩⟩
    | null => simp at h
    | bool b => simp at h
    | num n => simp at h
    | arr elems => simp at h
    | obj fields => simp at h

/-- Inversion of the checked timestamp steps (`nbf`, `exp`): the map shrinks by
the claim and either the claim was absent (and not disclosed), or it was the
integer form of the parsed timestamp. -/
theorem timestamp_claim_checked_step_ok (name : String) (o : JsonObject)
    (ds : List Disclosure) (res : Option Timestamp) (rest : JsonObject)
    (h : timestamp_claim_checked_step name o ds = .ok (res, rest)) :
    rest = o.removeKey name
    ∧ ((res = none ∧ o.get name = none)
       ∨ (∃ t, res = some t ∧ o.get name = some (.num t.to_unix))) := by
  unfold timestamp_claim_checked_step at h
  cases hg : o.get name with
  | none =>
    simp only [hg] at h
    cases hc : check_disclosed ds name with
    | none =>
      simp only [hc] at h
      cases h
      exact ⟨rfl, Or.inl ⟨rfl, rfl⟩⟩
    | some e =>
      simp only [hc] at h
      exact (Except.noConfusion h)
  | some value =>
    simp only [hg] at h
    cases value with
    | num n =>
      cases hp : Timestamp.from_unix n with
      | none =>
        simp only [hp] at h
        exact (Except.noConfusion h)
      | some t =>
        simp only [hp] at h
        cases h
        refine ⟨rfl, Or.inr ⟨t, rfl, ?_⟩⟩
        rw [Timestamp.from_unix_val n t hp]
        rfl
    | null => simp at h
    | bool b => simp at h
    | str s => simp at h
    | arr elems => simp at h
    | obj fields => simp at h

/-- Inversion of the unchecked timestamp step (`iat`). -/
theorem timestamp_claim_step_ok (name : String) (o : JsonObject)
    (res : Option Timestamp) (rest : JsonObject)
    (h : timestamp_claim_step name o = .ok (res, rest)) :
    rest = o.removeKey name
    ∧ ((res = none ∧ o.get name = none)
       ∨ (∃ t, res = some t ∧ o.get name = some (.num t.to_unix))) := by
  unfold timestamp_claim_step at h
  cases hg : o.get name with
  | none =>
    simp only [hg] at h
    cases h
    exact ⟨rfl, Or.inl ⟨rfl, rfl⟩⟩
  | some value =>
    simp only [hg] at h
    cases value with
    | num n =>
      cases hp : Timestamp.from_unix n with
      | none =>
        simp only [hp] at h
        exact (Except.noConfusion h)
      | some t =>
        simp only [hp] at h
        cases h
        refine ⟨rfl, Or.inr ⟨t, rfl, ?_⟩⟩
        rw [Timestamp.from_unix_val n t hp]
        rfl
    | null => simp at h
    | bool b => simp at h
    | str s => simp at h
    | arr elems => simp at h
    | obj fields => simp at h

/-- Inversion of the `vct` step: the map shrinks by `vct`, which was present
and the extracted string. -/
theorem vct_step_ok (o : JsonObject) (ds : List Disclosure) (res : String)
    (rest : JsonObject) (h : vct_step o ds = .ok (res, rest)) :
    rest = o.removeKey "vct" ∧ o.get "vct" = some (.str res) := by
  unfold vct_step at h
  cases hg : o.get "vct" with
  | none =>
    simp only [hg] at h
    exact (Except.noConfusion h)
  | some value =>
    simp only [hg] at h
    cases value with
    | str s =>
      cases h
      exact ⟨rfl, rfl⟩
    | null => simp at h
    | bool b => simp at h
    | num n => simp at h
    | arr elems => simp at h
    | obj fields => simp at h

/-- Inversion of the `status` step: the map shrinks by `status` and either
`status` was absent (and not disclosed) or it is the parsed status value. -/
theorem status_step_ok (o : JsonObject) (ds : List Disclosure)
    (res : Option Status) (rest : JsonObject)
    (h : status_step o ds = .ok (res, rest)) :
    rest = o.removeKey "status"
    ∧ ((res = none ∧ o.get "status" = none)
       ∨ (∃ st, res = some st ∧ o.get "status" = some st.value)) := by
  unfold status_step at h
  cases hg : o.get "status" with
  | none =>
    simp only [hg] at h
    cases hc : check_disclosed ds "status" with
    | none =>
      simp only [hc] at h
      cases h
      exact ⟨rfl, Or.inl ⟨rfl, rfl⟩⟩
    | some e =>
      simp only [hc] at h
      exact (Except.noConfusion h)
  | some value =>
    simp only [hg] at h
    cases hs : Status.fromJson value with
    | none =>
      simp only [hs] at h
      exact (Except.noConfusion h)
    | some st =>
      simp only [hs] at h
      cases h
      exact ⟨rfl, Or.inr ⟨st, rfl, by rw [Status.fromJson_val value st hs]⟩⟩

/-- Inversion of the `sub` step: the map shrinks by `sub` and either `sub` was
absent or it is the string underlying the parsed URL-or-string. -/
theorem sub_step_ok (o : JsonObject) (res : Option StringOrUrl) (rest : JsonObject)
    (h : sub_step o = .ok (res, rest)) :
    rest = o.removeKey "sub"
    ∧ ((res = none ∧ o.get "sub" = none)
       ∨ (∃ su, res = some su ∧ o.get "sub" = some (.str su.intoString))) := by
  unfold sub_step at h
  cases hg : o.get "sub" with
  | none =>
    simp only [hg] at h
    cases h
    exact ⟨rfl, Or.inl ⟨rfl, rfl⟩⟩
  | some value =>
    simp only [hg] at h
    cases value with
    | str s =>
      cases hp : StringOrUrl.parse s with
      | none =>
        simp only [hp] at h
        exact (Except.noConfusion h)
      | some su =>
        simp only [hp] at h
        cases h
        exact ⟨rfl, Or.inr ⟨su, rfl,
          by rw [StringOrUrl.parse_intoString s su hp]⟩⟩
    | null => simp at h
    | bool b => simp at h
    | num n => simp at h
    | arr elems => simp at h
    | obj fields => simp at h

/-- Counterexample to claim C4: a disclosure named `iss` with `iss` absent
from the top-level claims does not make `try_from_sd_jwt_claims` fail with
`DisclosedClaim("iss")`: parsing succeeds, because the source checks
disclosure names only for `nbf`, `exp`, `vct` and `status`. -/
theorem C4_counterexample :
    JsonObject.get [("vct", Json.str "x")] "iss" = none
    ∧ ([(⟨"salt", some "iss", Json.null⟩ : Disclosure)].any
        (fun d => d.claim_name = some "iss")) = true
    ∧ try_from_sd_jwt_claims ⟨[], none, none, [("vct", Json.str "x")]⟩
        [⟨"salt", some "iss", Json.null⟩] =
      .ok ⟨none, none, none, "x", none, none, none, ⟨[], none, none, []⟩⟩ :=
  ⟨rfl, by decide, rfl⟩

/-- Claim C4 (amended): among the reserved names, only `nbf`, `exp` and
`status` (with `vct` handled by its own step) are checked against the
disclosure list: when such a claim is absent from the top-level object and
appears as some disclosure's claim name, and the earlier steps succeed,
`try_from_sd_jwt_claims` fails with `DisclosedClaim` of that name.
Disclosures named `iss`, `sub` or `iat` are not rejected. -/
theorem C4_reserved_disclosure_names (claims : SdJwtClaims)
    (disclosures : List Disclosure) (iss0 : Option Url) (p1 : JsonObject)
    (hiss : iss_step claims.properties = .ok (iss0, p1)) :
    (claims.properties.get "nbf" = none →
      (disclosures.any (fun d => d.claim_name = some "nbf")) = true →
      try_from_sd_jwt_claims claims disclosures = .error (.disclosedClaim "nbf"))
    ∧ (∀ nbf0 p2,
        timestamp_claim_checked_step "nbf" p1 disclosures = .ok (nbf0, p2) →
        claims.properties.get "exp" = none →
        (disclosures.any (fun d => d.claim_name = some "exp")) = true →
        try_from_sd_jwt_claims claims disclosures = .error (.disclosedClaim "exp"))
    ∧ (∀ nbf0 p2 exp0 p3 vct0 p4,
        timestamp_claim_checked_step "nbf" p1 disclosures = .ok (nbf0, p2) →
        timestamp_claim_checked_step "exp" p2 disclosures = .ok (exp0, p3) →
        vct_step p3 disclosures = .ok (vct0, p4) →
        claims.properties.get "status" = none →
        (disclosures.any (fun d => d.claim_name = some "status")) = true →
        try_from_sd_jwt_claims claims disclosures =
          .error (.disclosedClaim "status")) := by
  have hp1 : p1 = claims.properties.removeKey "iss" :=
    (iss_step_ok claims.properties iss0 p1 hiss).1
  refine ⟨?_, ?_, ?_⟩
  · intro habsent hdisc
    have hget : p1.get "nbf" = none := by
      rw [hp1]
      exact get_removeKey_of_none _ _ _ habsent
    have hcheck : check_disclosed disclosures "nbf" = some (.disclosedClaim "nbf") := by
      unfold check_disclosed
      rw [if_pos hdisc]
    have hstep : timestamp_claim_checked_step "nbf" p1 disclosures =
        .error (.disclosedClaim "nbf") := by
      unfold timestamp_claim_checked_step
      simp only [hget, hcheck]
    unfold try_from_sd_jwt_claims
    simp only [hiss, hstep]
  · intro nbf0 p2 hnbf habsent hdisc
    have hp2 : p2 = p1.removeKey "nbf" :=
      (timestamp_claim_checked_step_ok "nbf" p1 disclosures nbf0 p2 hnbf).1
    have hget : p2.get "exp" = none := by
      rw [hp2, hp1]
      exact get_removeKey_of_none _ _ _ (get_removeKey_of_none _ _ _ habsent)
    have hcheck : check_disclosed disclosures "exp" = some (.disclosedClaim "exp") := by
      unfold check_disclosed
      rw [if_pos hdisc]
    have hstep : timestamp_claim_checked_step "exp" p2 disclosures =
        .error (.disclosedClaim "exp") := by
      unfold timestamp_claim_checked_step
      simp only [hget, hcheck]
    unfold try_from_sd_jwt_claims
    simp only [hiss, hnbf, hstep]
  · intro nbf0 p2 exp0 p3 vct0 p4 hnbf hexp hvct habsent hdisc
    have hp2 : p2 = p1.removeKey "nbf" :=
      (timestamp_claim_checked_step_ok "nbf" p1 disclosures nbf0 p2 hnbf).1
    have hp3 : p3 = p2.removeKey "exp" :=
      (timestamp_claim_checked_step_ok "exp" p2 disclosures exp0 p3 hexp).1
    have hp4 : p4 = p3.removeKey "vct" :=
      (vct_step_ok p3 disclosures vct0 p4 hvct).1
    have hget : p4.get "status" = none := by
      rw [hp4, hp3, hp2, hp1]
      exact get_removeKey_of_none _ _ _ (get_removeKey_of_none _ _ _
        (get_removeKey_of_none _ _ _ (get_removeKey_of_none _ _ _ habsent)))
    have hcheck : check_disclosed disclosures "status" =
        some (.disclosedClaim "status") := by
      unfold check_disclosed
      rw [if_pos hdisc]
    have hstep : status_step p4 disclosures = .error (.disclosedClaim "status") := by
      unfold status_step
      simp only [hget, hcheck]
    unfold try_from_sd_jwt_claims
    simp only [hiss, hnbf, hexp, hvct, hstep]

theorem C4_witness :
    try_from_sd_jwt_claims ⟨[], none, none, [("vct", Json.str "x")]⟩
      [⟨"s1", some "nbf", Json.null⟩] = .error (.disclosedClaim "nbf") :=
  (C4_reserved_disclosure_names ⟨[], none, none, [("vct", Json.str "x")]⟩
    [⟨"s1", some "nbf", Json.null⟩] none [("vct", Json.str "x")] rfl).1
    rfl (by decide)

/-- Claim C8: when the preceding `iss`, `nbf` and `exp` steps succeed,
`try_from_sd_jwt_claims` fails with `MissingClaim("vct")` when `vct` is absent
and not among the disclosure names, with `DisclosedClaim("vct")` when it is
absent but disclosed, with `InvalidClaimValue` when present but not a string,
and otherwise records the string value. -/
theorem C8_vct_claim (claims : SdJwtClaims) (disclosures : List Disclosure)
    (iss0 : Option Url) (p1 : JsonObject) (nbf0 : Option Timestamp)
    (p2 : JsonObject) (exp0 : Option Timestamp) (p3 : JsonObject)
    (hiss : iss_step claims.properties = .ok (iss0, p1))
    (hnbf : timestamp_claim_checked_step "nbf" p1 disclosures = .ok (nbf0, p2))
    (hexp : timestamp_claim_checked_step "exp" p2 disclosures = .ok (exp0, p3)) :
    (claims.properties.get "vct" = none →
      (disclosures.any (fun d => d.claim_name = some "vct")) = false →
      try_from_sd_jwt_claims claims disclosures = .error (.missingClaim "vct"))
    ∧ (claims.properties.get "vct" = none →
      (disclosures.any (fun d => d.claim_name = some "vct")) = true →
      try_from_sd_jwt_claims claims disclosures = .error (.disclosedClaim "vct"))
    ∧ (∀ value, claims.properties.get "vct" = some value → (∀ s, value ≠ .str s) →
      try_from_sd_jwt_claims claims disclosures =
        .error (.invalidClaimValue "vct" "String" value))
    ∧ (∀ s, claims.properties.get "vct" = some (.str s) →
      ∀ r, try_from_sd_jwt_claims claims disclosures = .ok r → r.vct = s) := by
  have hp1 : p1 = claims.properties.removeKey "iss" :=
    (iss_step_ok claims.properties iss0 p1 hiss).1
  have hp2 : p2 = p1.removeKey "nbf" :=
    (timestamp_claim_checked_step_ok "nbf" p1 disclosures nbf0 p2 hnbf).1
  have hp3 : p3 = p2.removeKey "exp" :=
    (timestamp_claim_checked_step_ok "exp" p2 disclosures exp0 p3 hexp).1
  have hsame : p3.get "vct" = claims.properties.get "vct" := by
    rw [hp3, hp2, hp1]
    rw [get_removeKey_ne _ _ _ (by decide), get_removeKey_ne _ _ _ (by decide),
        get_removeKey_ne _ _ _ (by decide)]
  refine ⟨?_, ?_, ?_, ?_⟩
  · intro habsent hdisc
    have hget : p3.get "vct" = none := by rw [hsame, habsent]
    have hcheck : check_disclosed disclosures "vct" = none := by
      unfold check_disclosed
      rw [if_neg (by rw [hdisc]; exact Bool.false_ne_true)]
    have hstep : vct_step p3 disclosures = .error (.missingClaim "vct") := by
      unfold vct_step
      simp only [hget, hcheck, Option.getD_none]
    unfold try_from_sd_jwt_claims
    simp only [hiss, hnbf, hexp, hstep]
  · intro habsent hdisc
    have hget : p3.get "vct" = none := by rw [hsame, habsent]
    have hcheck : check_disclosed disclosures "vct" = some (.disclosedClaim "vct") := by
      unfold check_disclosed
      rw [if_pos hdisc]
    have hstep : vct_step p3 disclosures = .error (.disclosedClaim "vct") := by
      unfold vct_step
      simp only [hget, hcheck, Option.getD_some]
    unfold try_from_sd_jwt_claims
    simp only [hiss, hnbf, hexp, hstep]
  · intro value hsome hnotstr
    have hget : p3.get "vct" = some value := by rw [hsame, hsome]
    have hstep : vct_step p3 disclosures =
        .error (.invalidClaimValue "vct" "String" value) := by
      unfold vct_step
      simp only [hget]
    unfold try_from_sd_jwt_claims
    simp only [hiss, hnbf, hexp, hstep]
  · intro s hsome r hr
    have hget : p3.get "vct" = some (.str s) := by rw [hsame, hsome]
    have hstep : vct_step p3 disclosures = .ok (s, p3.removeKey "vct") := by
      unfold vct_step
      simp only [hget]
    unfold try_from_sd_jwt_claims at hr
    simp only [hiss, hnbf, hexp, hstep] at hr
    cases hst : status_step (p3.removeKey "vct") disclosures with
    | error e =>
      simp only [hst] at hr
      exact (Except.noConfusion hr)
    | ok pair =>
      obtain ⟨st0, p5⟩ := pair
      simp only [hst] at hr
      cases hsub : sub_step p5 with
      | error e =>
        simp only [hsub] at hr
        exact (Except.noConfusion hr)
      | ok pair2 =>
        obtain ⟨sub0, p6⟩ := pair2
        simp only [hsub] at hr
        cases hiat : timestamp_claim_step "iat" p6 with
        | error e =>
          simp only [hiat] at hr
          exact (Except.noConfusion hr)
        | ok pair3 =>
          obtain ⟨iat0, p7⟩ := pair3
          simp only [hiat] at hr
          cases hr
          rfl

theorem C8_witness :
    try_from_sd_jwt_claims ⟨[], none, none, []⟩ [] = .error (.missingClaim "vct")
    ∧ try_from_sd_jwt_claims ⟨[], none, none, []⟩ [⟨"s1", some "vct", Json.null⟩] =
        .error (.disclosedClaim "vct")
    ∧ try_from_sd_jwt_claims ⟨[], none, none, [("vct", Json.num 3)]⟩ [] =
        .error (.invalidClaimValue "vct" "String" (Json.num 3))
    ∧ (⟨none, none, none, "x", none, none, none, ⟨[], none, none, []⟩⟩ :
        SdJwtVcClaims).vct = "x" :=
  ⟨(C8_vct_claim ⟨[], none, none, []⟩ [] none [] none [] none []
      rfl rfl rfl).1 rfl rfl,
   (C8_vct_claim ⟨[], none, none, []⟩ [⟨"s1", some "vct", Json.null⟩] none [] none
      [] none [] rfl rfl rfl).2.1 rfl (by decide),
   (C8_vct_claim ⟨[], none, none, [("vct", Json.num 3)]⟩ [] none
      [("vct", Json.num 3)] none [("vct", Json.num 3)] none [("vct", Json.num 3)]
      rfl rfl rfl).2.2.1 (Json.num 3) rfl (fun s h => Json.noConfusion h),
   (C8_vct_claim ⟨[], none, none, [("vct", Json.str "x")]⟩ [] none
      [("vct", Json.str "x")] none [("vct", Json.str "x")] none
      [("vct", Json.str "x")] rfl rfl rfl).2.2.2 "x" rfl
      ⟨none, none, none, "x", none, none, none, ⟨[], none, none, []⟩⟩ rfl⟩

theorem get_optInsert_ne (o : JsonObject) (k k' : String) (x : Option Json)
    (h : k ≠ k') : (optInsert o k' x).get k = o.get k := by
  cases x with
  | none => rfl
  | some v => exact get_insertKV_ne o k k' v h

theorem get_optInsert_some (o : JsonObject) (k : String) (v : Json) :
    (optInsert o k (some v)).get k = some v :=
  get_insertKV_self o k v

theorem optInsert_none (o : JsonObject) (k : String) : optInsert o k none = o := rfl

/-- Claim C10: converting successfully parsed SD-JWT VC claims back to SD-JWT
claims restores the original claims object: the reserved struct fields are
untouched and every key maps to its original value, the extracted fields being
re-inserted under their original names with their original values. -/
theorem C10_claims_roundtrip (claims : SdJwtClaims) (disclosures : List Disclosure)
    (v : SdJwtVcClaims)
    (h : try_from_sd_jwt_claims claims disclosures = .ok v) :
    (sd_jwt_claims_from_vc v)._sd = claims._sd
    ∧ (sd_jwt_claims_from_vc v)._sd_alg = claims._sd_alg
    ∧ (sd_jwt_claims_from_vc v).cnf = claims.cnf
    ∧ ∀ k, (sd_jwt_claims_from_vc v).properties.get k = claims.properties.get k := by
  unfold try_from_sd_jwt_claims at h
  cases hiss : iss_step claims.properties with
  | error e => simp only [hiss] at h; exact (Except.noConfusion h)
  | ok pr1 =>
  obtain ⟨iss0, p1⟩ := pr1
  simp only [hiss] at h
  cases hnbf : timestamp_claim_checked_step "nbf" p1 disclosures with
  | error e => simp only [hnbf] at h; exact (Except.noConfusion h)
  | ok pr2 =>
  obtain ⟨nbf0, p2⟩ := pr2
  simp only [hnbf] at h
  cases hexp : timestamp_claim_checked_step "exp" p2 disclosures with
  | error e => simp only [hexp] at h; exact (Except.noConfusion h)
  | ok pr3 =>
  obtain ⟨exp0, p3⟩ := pr3
  simp only [hexp] at h
  cases hvct : vct_step p3 disclosures with
  | error e => simp only [hvct] at h; exact (Except.noConfusion h)
  | ok pr4 =>
  obtain ⟨vct0, p4⟩ := pr4
  simp only [hvct] at h
  cases hst : status_step p4 disclosures with
  | error e => simp only [hst] at h; exact (Except.noConfusion h)
  | ok pr5 =>
  obtain ⟨st0, p5⟩ := pr5
  simp only [hst] at h
  cases hsub : sub_step p5 with
  | error e => simp only [hsub] at h; exact (Except.noConfusion h)
  | ok pr6 =>
  obtain ⟨sub0, p6⟩ := pr6
  simp only [hsub] at h
  cases hiat : timestamp_claim_step "iat" p6 with
  | error e => simp only [hiat] at h; exact (Except.noConfusion h)
  | ok pr7 =>
  obtain ⟨iat0, p7⟩ := pr7
  simp only [hiat] at h
  cases h
  obtain ⟨hp1, hiss_c⟩ := iss_step_ok claims.properties iss0 p1 hiss
  obtain ⟨hp2, hnbf_c⟩ := timestamp_claim_checked_step_ok "nbf" p1 disclosures nbf0 p2 hnbf
  obtain ⟨hp3, hexp_c⟩ := timestamp_claim_checked_step_ok "exp" p2 disclosures exp0 p3 hexp
  obtain ⟨hp4, hvct_g⟩ := vct_step_ok p3 disclosures vct0 p4 hvct
  obtain ⟨hp5, hst_c⟩ := status_step_ok p4 disclosures st0 p5 hst
  obtain ⟨hp6, hsub_c⟩ := sub_step_ok p5 sub0 p6 hsub
  obtain ⟨hp7, hiat_c⟩ := timestamp_claim_step_ok "iat" p6 iat0 p7 hiat
  have e7 : ∀ k, k ≠ "iss" → k ≠ "nbf" → k ≠ "exp" → k ≠ "vct" → k ≠ "status" →
      k ≠ "sub" → k ≠ "iat" → p7.get k = claims.properties.get k := by
    intro k h1 h2 h3 h4 h5 h6 h7
    rw [hp7, hp6, hp5, hp4, hp3, hp2, hp1]
    rw [get_removeKey_ne _ _ _ h7, get_removeKey_ne _ _ _ h6,
        get_removeKey_ne _ _ _ h5, get_removeKey_ne _ _ _ h4,
        get_removeKey_ne _ _ _ h3, get_removeKey_ne _ _ _ h2,
        get_removeKey_ne _ _ _ h1]
  have e7none : ∀ k, claims.properties.get k = none → p7.get k = none := by
    intro k hk
    rw [hp7, hp6, hp5, hp4, hp3, hp2, hp1]
    exact get_removeKey_of_none _ _ _ (get_removeKey_of_none _ _ _
      (get_removeKey_of_none _ _ _ (get_removeKey_of_none _ _ _
        (get_removeKey_of_none _ _ _ (get_removeKey_of_none _ _ _
          (get_removeKey_of_none _ _ _ hk))))))
  have e1 : p1.get "nbf" = claims.properties.get "nbf" := by
    rw [hp1]
    exact get_removeKey_ne _ _ _ (by decide)
  have e2 : p2.get "exp" = claims.properties.get "exp" := by
    rw [hp2, hp1]
    rw [get_removeKey_ne _ _ _ (by decide), get_removeKey_ne _ _ _ (by decide)]
  have e3 : p3.get "vct" = claims.properties.get "vct" := by
    rw [hp3, hp2, hp1]
    rw [get_removeKey_ne _ _ _ (by decide), get_removeKey_ne _ _ _ (by decide),
        get_removeKey_ne _ _ _ (by decide)]
  have e4 : p4.get "status" = claims.properties.get "status" := by
    rw [hp4, hp3, hp2, hp1]
    rw [get_removeKey_ne _ _ _ (by decide), get_removeKey_ne _ _ _ (by decide),
        get_removeKey_ne _ _ _ (by decide), get_removeKey_ne _ _ _ (by decide)]
  have e5 : p5.get "sub" = claims.properties.get "sub" := by
    rw [hp5, hp4, hp3, hp2, hp1]
    rw [get_removeKey_ne _ _ _ (by decide), get_removeKey_ne _ _ _ (by decide),
        get_removeKey_ne _ _ _ (by decide), get_removeKey_ne _ _ _ (by decide),
        get_removeKey_ne _ _ _ (by decide)]
  have e6 : p6.get "iat" = claims.properties.get "iat" := by
    rw [hp6, hp5, hp4, hp3, hp2, hp1]
    rw [get_removeKey_ne _ _ _ (by decide), get_removeKey_ne _ _ _ (by decide),
        get_removeKey_ne _ _ _ (by decide), get_removeKey_ne _ _ _ (by decide),
        get_removeKey_ne _ _ _ (by decide), get_removeKey_ne _ _ _ (by decide)]
  refine ⟨rfl, rfl, rfl, ?_⟩
  intro k
  simp only [sd_jwt_claims_from_vc]
  by_cases hk1 : k = "iss"
  · subst hk1
    rw [get_optInsert_ne _ _ _ _ (by decide), get_optInsert_ne _ _ _ _ (by decide),
        get_optInsert_ne _ _ _ _ (by decide), get_insertKV_ne _ _ _ _ (by decide),
        get_optInsert_ne _ _ _ _ (by decide), get_optInsert_ne _ _ _ _ (by decide)]
    rcases hiss_c with ⟨h0, hg⟩ | ⟨u, h0, hg⟩
    · subst h0
      rw [hg, Option.map_none', optInsert_none]
      exact e7none "iss" hg
    · subst h0
      rw [hg, Option.map_some', get_optInsert_some]
      rfl
  by_cases hk2 : k = "nbf"
  · subst hk2
    rw [get_optInsert_ne _ _ _ _ (by decide), get_optInsert_ne _ _ _ _ (by decide),
        get_optInsert_ne _ _ _ _ (by decide), get_insertKV_ne _ _ _ _ (by decide),
        get_optInsert_ne _ _ _ _ (by decide)]
    rcases hnbf_c with ⟨h0, hg⟩ | ⟨t, h0, hg⟩
    · subst h0
      rw [e1] at hg
      rw [hg, Option.map_none', optInsert_none,
          get_optInsert_ne _ _ _ _ (by decide)]
      exact e7none "nbf" hg
    · subst h0
      rw [e1] at hg
      rw [hg, Option.map_some', get_optInsert_some]
  by_cases hk3 : k = "exp"
  · subst hk3
    rw [get_optInsert_ne _ _ _ _ (by decide), get_optInsert_ne _ _ _ _ (by decide),
        get_optInsert_ne _ _ _ _ (by decide), get_insertKV_ne _ _ _ _ (by decide)]
    rcases hexp_c with ⟨h0, hg⟩ | ⟨t, h0, hg⟩
    · subst h0
      rw [e2] at hg
      rw [hg, Option.map_none', optInsert_none,
          get_optInsert_ne _ _ _ _ (by decide),
          get_optInsert_ne _ _ _ _ (by decide)]
      exact e7none "exp" hg
    · subst h0
      rw [e2] at hg
      rw [hg, Option.map_some', get_optInsert_some]
  by_cases hk4 : k = "vct"
  · subst hk4
    rw [get_optInsert_ne _ _ _ _ (by decide), get_optInsert_ne _ _ _ _ (by decide),
        get_optInsert_ne _ _ _ _ (by decide), get_insertKV_self]
    rw [e3] at hvct_g
    rw [hvct_g]
  by_cases hk5 : k = "status"
  · subst hk5
    rw [get_optInsert_ne _ _ _ _ (by decide), get_optInsert_ne _ _ _ _ (by decide)]
    rcases hst_c with ⟨h0, hg⟩ | ⟨st, h0, hg⟩
    · subst h0
      rw [e4] at hg
      rw [hg, Option.map_none', optInsert_none,
          get_insertKV_ne _ _ _ _ (by decide),
          get_optInsert_ne _ _ _ _ (by decide), get_optInsert_ne _ _ _ _ (by decide),
          get_optInsert_ne _ _ _ _ (by decide)]
      exact e7none "status" hg
    · subst h0
      rw [e4] at hg
      rw [hg, Option.map_some', get_optInsert_some]
  by_cases hk6 : k = "sub"
  · subst hk6
    rcases hsub_c with ⟨h0, hg⟩ | ⟨su, h0, hg⟩
    · subst h0
      rw [e5] at hg
      rw [hg, Option.map_none', optInsert_none,
          get_optInsert_ne _ _ _ _ (by decide),
          get_optInsert_ne _ _ _ _ (by decide), get_insertKV_ne _ _ _ _ (by decide),
          get_optInsert_ne _ _ _ _ (by decide), get_optInsert_ne _ _ _ _ (by decide),
          get_optInsert_ne _ _ _ _ (by decide)]
      exact e7none "sub" hg
    · subst h0
      rw [e5] at hg
      rw [hg, Option.map_some', get_optInsert_some]
  by_cases hk7 : k = "iat"
  · subst hk7
    rw [get_optInsert_ne _ _ _ _ (by decide)]
    rcases hiat_c with ⟨h0, hg⟩ | ⟨t, h0, hg⟩
    · subst h0
      rw [e6] at hg
      rw [hg, Option.map_none', optInsert_none,
          get_optInsert_ne _ _ _ _ (by decide),
          get_insertKV_ne _ _ _ _ (by decide), get_optInsert_ne _ _ _ _ (by decide),
          get_optInsert_ne _ _ _ _ (by decide), get_optInsert_ne _ _ _ _ (by decide)]
      exact e7none "iat" hg
    · subst h0
      rw [e6] at hg
      rw [hg, Option.map_some', get_optInsert_some]
  rw [get_optInsert_ne _ _ _ _ hk6, get_optInsert_ne _ _ _ _ hk7,
      get_optInsert_ne _ _ _ _ hk5, get_insertKV_ne _ _ _ _ hk4,
      get_optInsert_ne _ _ _ _ hk3, get_optInsert_ne _ _ _ _ hk2,
      get_optInsert_ne _ _ _ _ hk1]
  exact e7 k hk1 hk2 hk3 hk4 hk5 hk6 hk7

theorem C10_witness :
    try_from_sd_jwt_claims
      ⟨["dig0"], some "sha-256", none,
       [("iss", Json.str "did:ex:a"), ("vct", Json.str "T"),
        ("extra", Json.num 5), ("nbf", Json.num 100)]⟩ [] =
      .ok ⟨some ⟨"did:ex:a"⟩, some 100, none, "T", none, none, none,
           ⟨["dig0"], some "sha-256", none, [("extra", Json.num 5)]⟩⟩
    ∧ ∀ k, (sd_jwt_claims_from_vc
        ⟨some ⟨"did:ex:a"⟩, some 100, none, "T", none, none, none,
         ⟨["dig0"], some "sha-256", none, [("extra", Json.num 5)]⟩⟩).properties.get k
      = JsonObject.get
          [("iss", Json.str "did:ex:a"), ("vct", Json.str "T"),
           ("extra", Json.num 5), ("nbf", Json.num 100)] k :=
  ⟨rfl,
   (C10_claims_roundtrip
     ⟨["dig0"], some "sha-256", none,
      [("iss", Json.str "did:ex:a"), ("vct", Json.str "T"),
       ("extra", Json.num 5), ("nbf", Json.num 100)]⟩ []
     ⟨some ⟨"did:ex:a"⟩, some 100, none, "T", none, none, none,
      ⟨["dig0"], some "sha-256", none, [("extra", Json.num 5)]⟩⟩ rfl).2.2.2⟩

end Identity
